import Mathlib

/-!
Shallow embedding of the VoterHack real-time reconciliation and derived-state
engine: the `useRealtime` hook (src/unnamed/part_004), the supabase record
types (src/unnamed/part_003), and the pure derived-state functions of
`TurnoutMap.tsx` and `Dashboard` (src/src/components/TurnoutMap.tsx).
Numbers are rationals, nullable columns are `Option`, JS `Map` is an
association list with JS `Map.set` / `Map.get` semantics.
-/

namespace VoterHack

/-- Election types (lib/supabase, src/unnamed/part_003 line 418): the partition key. -/
inductive ElectionType
  | midterm_2026
  | presidential
  | midterm
deriving DecidableEq, Repr

/-- The 5-level neighbor-turnout response scale (src/unnamed/part_003 line 421). -/
inductive NeighborTurnoutLevel
  | almost_all
  | most
  | about_half
  | probably_not
  | definitely_not
deriving DecidableEq, Repr

/-- The 5-level turnout-direction response scale (src/unnamed/part_003 line 422). -/
inductive TurnoutDirection
  | much_higher
  | little_higher
  | about_same
  | little_lower
  | much_lower
deriving DecidableEq, Repr

/-- The vote-intent response scale (src/unnamed/part_003 line 423). -/
inductive VoteIntent
  | definitely_yes
  | probably_yes
  | not_sure
  | probably_not
  | definitely_not
deriving DecidableEq, Repr

/-- A `posterior_estimates` row (src/unnamed/part_003 lines 425-437). -/
structure PosteriorEstimate where
  geo_id : String
  election_type : ElectionType
  mu_prior : Option ℚ
  mu_post : Option ℚ
  sigma_prior : Option ℚ
  sigma_post : Option ℚ
  divergence_z : Option ℚ
  delta_mean : Option ℚ
  n_eff : Option ℚ
  is_visible : Bool
  updated_at : String
deriving DecidableEq, Repr

/-- A `poll_submissions` row (src/unnamed/part_003 lines 460-470). -/
structure PollSubmission where
  id : String
  created_at : String
  poll_id : String
  voter_id : Option String
  geo_id : String
  neighbor_turnout : NeighborTurnoutLevel
  turnout_direction : TurnoutDirection
  vote_intent : VoteIntent
  election_type : ElectionType
deriving DecidableEq, Repr

/-- JS `Map.set` on an insertion-ordered association list: replace the value in
place if the key is present, otherwise append the new entry at the end. -/
def mapSet (m : List (String × PosteriorEstimate)) (k : String) (v : PosteriorEstimate) :
    List (String × PosteriorEstimate) :=
  match m with
  | [] => [(k, v)]
  | (k0, v0) :: rest => if k0 = k then (k, v) :: rest else (k0, v0) :: mapSet rest k v

/-- JS `Map.get`: the value stored under `k`, if any. -/
def storeFind (m : List (String × PosteriorEstimate)) (k : String) : Option PosteriorEstimate :=
  match m with
  | [] => none
  | (k0, v) :: rest => if k0 = k then some v else storeFind rest k

/-- One merge into the entity store, keyed by `geo_id`: the push handler in
`useRealtime` does `setPosteriors(prev => new Map(prev).set(row.geo_id, row))`
(src/unnamed/part_004 line 193). -/
def mergeRecord (m : List (String × PosteriorEstimate)) (r : PosteriorEstimate) :
    List (String × PosteriorEstimate) :=
  mapSet m r.geo_id r

/-- Build a store from a record list, later duplicates winning: both the merge
sequence of push events and `new Map(data.map(r => [r.geo_id, r]))` in `load`
(src/unnamed/part_004 line 166). -/
def mergeAll (rs : List PosteriorEstimate) : List (String × PosteriorEstimate) :=
  rs.foldl mergeRecord []

/-- The change verdict of the map diff effect (TurnoutMap.tsx lines 118-123):
`!prev || prev.n_eff !== current.n_eff || prev.mu_post !== current.mu_post`. -/
def changedVerdict (current : PosteriorEstimate) (prev : Option PosteriorEstimate) : Bool :=
  match prev with
  | none => true
  | some q => !(decide (q.n_eff = current.n_eff)) || !(decide (q.mu_post = current.mu_post))

/-- The displayed mean shared by `getTurnoutColor` and `getGlowIntensity`
(TurnoutMap.tsx lines 42-45 and 90-93): posterior mean when the record is
visible, with the prior mean as fallback for a missing posterior. -/
def displayedMean (muPrior : ℚ) (posterior : Option PosteriorEstimate) : ℚ :=
  if (posterior.map (fun p => p.is_visible)).getD false then
    (posterior.bind (fun p => p.mu_post)).getD muPrior
  else muPrior

/-- The cyan band scale of `getTurnoutColor` (TurnoutMap.tsx lines 49-58). -/
def colorScale (turnout : ℚ) : String :=
  let normalized := max 0 (min 1 ((turnout - 0.25) / 0.55))
  if normalized ≥ 0.85 then "#00E5FF"
  else if normalized ≥ 0.7 then "#22D3EE"
  else if normalized ≥ 0.55 then "#06B6D4"
  else if normalized ≥ 0.4 then "#0891B2"
  else if normalized ≥ 0.25 then "#0E7490"
  else if normalized ≥ 0.1 then "#155E75"
  else "#164E63"

/-- `getTurnoutColor` (TurnoutMap.tsx lines 32-59). -/
def getTurnoutColor (muPrior : ℚ) (posterior : Option PosteriorEstimate)
    (isRecentlyUpdated : Bool) : String :=
  if isRecentlyUpdated then "#00FFFF"
  else colorScale (displayedMean muPrior posterior)

/-- `getOpacity` (TurnoutMap.tsx lines 67-83). -/
def getOpacity (posterior : Option PosteriorEstimate) (isRecentlyUpdated : Bool) : ℚ :=
  if isRecentlyUpdated then 0.95
  else
    let hasLiveCalibration := (posterior.map (fun p => p.is_visible)).getD false
    let responses := (posterior.bind (fun p => p.n_eff)).getD 0
    if hasLiveCalibration then min 0.9 (0.6 + responses * 0.025)
    else 0.55

/-- The glow step function of `getGlowIntensity` (TurnoutMap.tsx lines 99-101). -/
def glowFromTurnout (turnout : ℚ) (boost : ℚ) : ℚ :=
  if turnout ≥ 0.7 then 0.5 + boost
  else if turnout ≥ 0.6 then 0.25 + boost
  else 0

/-- `getGlowIntensity` (TurnoutMap.tsx lines 89-102). -/
def getGlowIntensity (posterior : Option PosteriorEstimate) (muPrior : ℚ) : ℚ :=
  glowFromTurnout (displayedMean muPrior posterior)
    (if (posterior.map (fun p => p.is_visible)).getD false then 0.1 else 0)

/-- Signal direction values of `getSignalType` (TurnoutMap.tsx line 322). -/
inductive SignalType
  | higher
  | same
  | lower
deriving DecidableEq, Repr

/-- Impact values of a classified signal (SignalLog.tsx line 9). -/
inductive Impact
  | small
  | medium
  | large
deriving DecidableEq, Repr

/-- Ordinal score of the primary field (TurnoutMap.tsx lines 323-325). -/
def turnoutScore : NeighborTurnoutLevel → ℚ
  | .almost_all => 2
  | .most => 1
  | .about_half => 0
  | .probably_not => -1
  | .definitely_not => -2

/-- Ordinal score of the secondary field (TurnoutMap.tsx lines 326-328). -/
def directionScore : TurnoutDirection → ℚ
  | .much_higher => 2
  | .little_higher => 1
  | .about_same => 0
  | .little_lower => -1
  | .much_lower => -2

/-- `getSignalType` (TurnoutMap.tsx lines 322-334). -/
def getSignalType (neighborTurnout : NeighborTurnoutLevel) (direction : TurnoutDirection) :
    SignalType :=
  let combined := turnoutScore neighborTurnout + directionScore direction * 0.5
  if combined > 0.5 then .higher
  else if combined < -0.5 then .lower
  else .same

/-- The shift score of the primary field (TurnoutMap.tsx lines 462-464 and 406-408). -/
def signalScore : NeighborTurnoutLevel → ℚ
  | .almost_all => 0.15
  | .most => 0.08
  | .about_half => 0
  | .probably_not => -0.08
  | .definitely_not => -0.15

/-- The shift score of the secondary field (TurnoutMap.tsx lines 465-467 and 409-411). -/
def directionShiftScore : TurnoutDirection → ℚ
  | .much_higher => 0.1
  | .little_higher => 0.05
  | .about_same => 0
  | .little_lower => -0.05
  | .much_lower => -0.1

/-- `posteriorShift` of a classified signal (TurnoutMap.tsx lines 468 and 412). -/
def posteriorShiftOf (neighborTurnout : NeighborTurnoutLevel) (direction : TurnoutDirection) : ℚ :=
  (signalScore neighborTurnout + directionShiftScore direction * 0.5) * 0.1

/-- The divergence magnitude the live handler feeds into the impact thresholds
(TurnoutMap.tsx line 457): `Math.abs(posterior?.divergence_z ?? 0)`. -/
def currentZOf (posterior : Option PosteriorEstimate) : ℚ :=
  |(posterior.bind (fun p => p.divergence_z)).getD 0|

/-- The impact thresholds of the live submission handler (TurnoutMap.tsx lines 458-459). -/
def impactFromZ (currentZ : ℚ) : Impact :=
  if currentZ ≥ 1.5 then .large
  else if currentZ ≥ 0.75 then .medium
  else .small

/-- A `SignalEntry` of the event log (SignalLog.tsx lines 3-11); the timestamp
stays an opaque string. -/
structure SignalEntry where
  id : String
  timestamp : String
  geoId : String
  neighborhood : String
  signalType : SignalType
  impact : Impact
  posteriorShift : ℚ
deriving DecidableEq, Repr

/-- The signal built by the live `poll_submissions` subscription handler
(TurnoutMap.tsx lines 447-478): direction from `getSignalType`, impact from the
current divergence of the target entity. -/
def liveSignal (sub : PollSubmission) (neighborhood : String)
    (posterior : Option PosteriorEstimate) : SignalEntry :=
  { id := sub.id
    timestamp := sub.created_at
    geoId := sub.geo_id
    neighborhood := neighborhood
    signalType := getSignalType sub.neighbor_turnout sub.turnout_direction
    impact := impactFromZ (currentZOf posterior)
    posteriorShift := posteriorShiftOf sub.neighbor_turnout sub.turnout_direction }

/-- The signal built when an existing submission is loaded from history
(TurnoutMap.tsx lines 401-423): the impact field is the literal `medium`. -/
def loadedSignal (sub : PollSubmission) (neighborhood : String) : SignalEntry :=
  { id := sub.id
    timestamp := sub.created_at
    geoId := sub.geo_id
    neighborhood := neighborhood
    signalType := getSignalType sub.neighbor_turnout sub.turnout_direction
    impact := Impact.medium
    posteriorShift := posteriorShiftOf sub.neighbor_turnout sub.turnout_direction }

/-- One live append to the event log (TurnoutMap.tsx line 480):
`setSignals(prev => [...prev.slice(-49), newSignal])`. -/
def appendSignal (log : List SignalEntry) (s : SignalEntry) : List SignalEntry :=
  log.drop (log.length - 49) ++ [s]

/-- The last `n` elements of a list, oldest first (JS `slice(-n)`). -/
def lastN (n : Nat) (l : List SignalEntry) : List SignalEntry :=
  l.drop (l.length - n)

/-- The state of the `useRealtime` hook (src/unnamed/part_004 lines 159-209):
the active election type (which is also the filter of the one live push
channel, torn down and reopened together with the switch), the posteriors map,
and the election types of the `fetchPosteriors` calls still in flight. The
hook never cancels an issued fetch, so `pendingLoads` survives a switch. -/
structure RealtimeState where
  active : ElectionType
  store : List (String × PosteriorEstimate)
  pendingLoads : List ElectionType
deriving DecidableEq, Repr

/-- The events the hook reacts to: a push payload on the live channel, the
resolution of pending fetch number `i`, a fallback poll tick (or a `refresh`
call) issuing one more fetch for the active type, and a partition switch. -/
inductive RealtimeEvent
  | pushEvent (r : PosteriorEstimate)
  | loadComplete (i : Nat) (records : List PosteriorEstimate)
  | pollTick
  | setPartition (e : ElectionType)
deriving DecidableEq, Repr

/-- One step of the hook. Push events merge only when the row matches the
active election type (the subscription filter plus the handler check,
src/unnamed/part_004 lines 188-194). A completed fetch replaces the whole map
(`setPosteriors(map)`, line 167) with rows of the election type it was issued
for (`fetchPosteriors` filters server-side, src/unnamed/part_003 line 477). A
switch clears the map, retargets the channel, and issues a fetch for the new
type (lines 171-199) without cancelling fetches already in flight. -/
def stepRealtime (s : RealtimeState) : RealtimeEvent → RealtimeState
  | .pushEvent r =>
      if r.election_type = s.active then { s with store := mergeRecord s.store r } else s
  | .loadComplete i records =>
      match s.pendingLoads.get? i with
      | none => s
      | some p =>
          if records.all (fun r => decide (r.election_type = p)) then
            { s with store := mergeAll records, pendingLoads := s.pendingLoads.eraseIdx i }
          else s
  | .pollTick => { s with pendingLoads := s.pendingLoads ++ [s.active] }
  | .setPartition e =>
      if e = s.active then s
      else { active := e, store := [], pendingLoads := s.pendingLoads ++ [e] }

/-- Mount of the hook: empty map, one initial fetch in flight, channel open for
the initial election type (src/unnamed/part_004 lines 171-199). -/
def initRealtime (e : ElectionType) : RealtimeState :=
  { active := e, store := [], pendingLoads := [e] }

/-- Run the hook from mount through a list of events. -/
def runRealtime (e : ElectionType) (evs : List RealtimeEvent) : RealtimeState :=
  evs.foldl stepRealtime (initRealtime e)

/-- Every store entry and every pending fetch is scoped to election type `B`,
and the channel targets `B`. -/
def scopedTo (B : ElectionType) (s : RealtimeState) : Prop :=
  s.active = B ∧ (∀ p ∈ s.pendingLoads, p = B) ∧ (∀ kv ∈ s.store, kv.2.election_type = B)

/-- The highlight scheduler of `Dashboard` (TurnoutMap.tsx lines 482-490): the
`recentlyUpdated` set plus the removal timeouts currently scheduled. Marking a
key adds it to the set and schedules one removal of that key 2000 ms later;
every removal fires unconditionally. -/
structure HighlightState where
  highlighted : List String
  timers : List (Nat × String)
deriving DecidableEq, Repr

/-- Fire every removal timeout due at or before time `t`: each one deletes its
key from the set (TurnoutMap.tsx lines 484-490). -/
def fireDue (t : Nat) (s : HighlightState) : HighlightState :=
  { highlighted := s.highlighted.filter
      (fun k => !(s.timers.any (fun tk => decide (tk.1 ≤ t) && decide (tk.2 = k))))
    timers := s.timers.filter (fun tk => decide (t < tk.1)) }

/-- `mark` at time `t` (TurnoutMap.tsx lines 483-490): JS `Set.add` (no change
when present) plus one fresh `setTimeout` removal due at `t + 2000`. -/
def markKey (t : Nat) (k : String) (s : HighlightState) : HighlightState :=
  { highlighted :=
      if s.highlighted.any (fun x => decide (x = k)) then s.highlighted
      else s.highlighted ++ [k]
    timers := s.timers ++ [(t + 2000, k)] }

/-- Process a chronological list of `(time, key)` marks, firing due timeouts
before each mark. -/
def processMarks (marks : List (Nat × String)) : HighlightState :=
  marks.foldl (fun s m => markKey m.1 m.2 (fireDue m.1 s)) ⟨[], []⟩

/-- Whether key `k` is in the `recentlyUpdated` set at time `t`, given the
chronological mark list: process the marks that happened up to `t`, fire every
timeout due by `t`, and look the key up. -/
def isHighlightedAt (marks : List (Nat × String)) (k : String) (t : Nat) : Bool :=
  (fireDue t (processMarks (marks.filter (fun m => decide (m.1 ≤ t))))).highlighted.any
    (fun x => decide (x = k))

/-- The impact rule as the spec phrases it, directly on a divergence score:
at least 1.5 in magnitude is large, at least 0.75 is medium, otherwise small. -/
def specImpactOfDivergence (z : ℚ) : Impact :=
  if |z| ≥ 1.5 then .large
  else if |z| ≥ 0.75 then .medium
  else .small

/-- Sample presidential-partition record, not visible. -/
def recPres : PosteriorEstimate :=
  { geo_id := "PCT_9001", election_type := .presidential, mu_prior := some 0.6,
    mu_post := none, sigma_prior := none, sigma_post := none, divergence_z := none,
    delta_mean := none, n_eff := some 0, is_visible := false, updated_at := "t0" }

/-- Sample midterm-2026 record. -/
def recMid : PosteriorEstimate :=
  { geo_id := "PCT_7", election_type := .midterm_2026, mu_prior := some 0.62,
    mu_post := some 0.7, sigma_prior := some 0.05, sigma_post := some 0.04,
    divergence_z := some 0.3, delta_mean := some 0.08, n_eff := some 6,
    is_visible := true, updated_at := "t1" }

/-- Sample record that is not visible. -/
def pHidden : PosteriorEstimate :=
  { recMid with geo_id := "PCT_10", is_visible := false }

/-- Sample visible record with a small effective count. -/
def pVis2 : PosteriorEstimate :=
  { recMid with geo_id := "PCT_11", n_eff := some 2 }

/-- Sample visible record with a larger effective count. -/
def pVis8 : PosteriorEstimate :=
  { recMid with geo_id := "PCT_12", n_eff := some 8 }

/-- Sample visible record whose posterior mean is null. -/
def pVisNoPost : PosteriorEstimate :=
  { recMid with geo_id := "PCT_13", mu_post := none }

/-- Sample record with a large divergence score. -/
def pHighZ : PosteriorEstimate :=
  { recMid with geo_id := "PCT_14", divergence_z := some 2 }

/-- Sample poll submission. -/
def subSample : PollSubmission :=
  { id := "sub-1", created_at := "t2", poll_id := "poll-1", voter_id := none,
    geo_id := "PCT_14", neighbor_turnout := .almost_all, turnout_direction := .much_higher,
    vote_intent := .probably_yes, election_type := .midterm_2026 }

/-- Lookup after a `Map.set`: the new value under the written key, the old
lookup elsewhere. -/
theorem storeFind_mapSet (m : List (String × PosteriorEstimate)) (k : String)
    (v : PosteriorEstimate) (q : String) :
    storeFind (mapSet m k v) q = if k = q then some v else storeFind m q := by
  induction m with
  | nil => simp [mapSet, storeFind]
  | cons hd tl ih =>
      obtain ⟨k0, v0⟩ := hd
      by_cases h : k0 = k
      · subst h
        simp only [mapSet, if_pos rfl, storeFind]
        split_ifs <;> simp_all [storeFind]
      · simp only [mapSet, if_neg h, storeFind, ih]
        split_ifs <;> simp_all

/-- C2: the entity store is last-write-wins in call order. For every finite
sequence of merges starting from an empty store, the lookup of each key is the
last merged record carrying that key, and keys never merged are absent. -/
theorem entityStore_lastWriteWins :
    ∀ (rs : List PosteriorEstimate) (k : String),
      storeFind (mergeAll rs) k = (rs.filter (fun r => decide (r.geo_id = k))).getLast? := by
  intro rs k
  induction rs using List.reverseRecOn with
  | nil => rfl
  | append_singleton l r ih =>
      unfold mergeAll at *
      rw [List.foldl_append, List.foldl_cons, List.foldl_nil]
      show storeFind (mapSet (l.foldl mergeRecord []) r.geo_id r) k = _
      rw [storeFind_mapSet, List.filter_append, ih]
      by_cases h : r.geo_id = k
      · simp [h, List.getLast?_concat]
      · simp [h]

/-- C4: the change verdict is true exactly when there is no previous record or
the effective count or posterior mean changed; equality of both yields false. -/
theorem changedVerdict_spec :
    ∀ (current : PosteriorEstimate) (prev : Option PosteriorEstimate),
      changedVerdict current prev = true ↔
        (prev = none ∨ ∃ q, prev = some q ∧
          (q.n_eff ≠ current.n_eff ∨ q.mu_post ≠ current.mu_post)) := by
  intro current prev
  cases prev with
  | none => simp [changedVerdict]
  | some q => simp [changedVerdict]

/-- C5: opacity is the base 0.55 for non-highlighted invisible records, is
monotone non-decreasing in the effective count and capped at 0.9 for
non-highlighted visible records, and is the fixed 0.95 override for every
highlighted record. -/
theorem opacity_spec :
    (∀ posterior : Option PosteriorEstimate,
      (posterior.map (fun p => p.is_visible)).getD false = false →
        getOpacity posterior false = 0.55) ∧
    (∀ p q : PosteriorEstimate, p.is_visible = true → q.is_visible = true →
      p.n_eff.getD 0 ≤ q.n_eff.getD 0 →
        getOpacity (some p) false ≤ getOpacity (some q) false) ∧
    (∀ p : PosteriorEstimate, p.is_visible = true → getOpacity (some p) false ≤ 0.9) ∧
    (∀ posterior : Option PosteriorEstimate, getOpacity posterior true = 0.95) := by
  refine ⟨?_, ?_, ?_, ?_⟩
  · intro posterior h
    simp [getOpacity, h]
  · intro p q hp hq hle
    have hvp : getOpacity (some p) false = min 0.9 (0.6 + p.n_eff.getD 0 * 0.025) := by
      simp [getOpacity, hp]
    have hvq : getOpacity (some q) false = min 0.9 (0.6 + q.n_eff.getD 0 * 0.025) := by
      simp [getOpacity, hq]
    rw [hvp, hvq]
    exact min_le_min le_rfl
      (add_le_add_left (mul_le_mul_of_nonneg_right hle (by norm_num : (0 : ℚ) ≤ 0.025)) _)
  · intro p hp
    simp [getOpacity, hp]
  · intro posterior
    simp [getOpacity]

/-- C5 witness: the opacity statements applied at concrete records. -/
theorem opacity_spec_witness :
    getOpacity (some pHidden) false = 0.55 ∧
    getOpacity (some pVis2) false ≤ getOpacity (some pVis8) false ∧
    getOpacity (some pVis8) false ≤ 0.9 ∧
    getOpacity none true = 0.95 :=
  ⟨opacity_spec.1 (some pHidden) (by decide),
   opacity_spec.2.1 pVis2 pVis8 (by decide) (by decide) (by decide),
   opacity_spec.2.2.1 pVis8 (by decide),
   opacity_spec.2.2.2 none⟩

/-- C10: for a visible record with a null posterior mean, the displayed mean
falls back to the prior mean, so the derived color is the color of the prior
mean and the glow is the prior-mean glow with the visibility boost. -/
theorem displayFallback_prior :
    ∀ (p : PosteriorEstimate) (muPrior : ℚ), p.is_visible = true → p.mu_post = none →
      displayedMean muPrior (some p) = muPrior ∧
      getTurnoutColor muPrior (some p) false = colorScale muPrior ∧
      getGlowIntensity (some p) muPrior = glowFromTurnout muPrior 0.1 := by
  intro p muPrior hvis hpost
  have hd : displayedMean muPrior (some p) = muPrior := by
    simp [displayedMean, hvis, hpost]
  refine ⟨hd, ?_, ?_⟩
  · simp [getTurnoutColor, hd]
  · simp [getGlowIntensity, hd, hvis]

/-- C10 witness: the fallback applied at a concrete visible record with a null
posterior mean and prior mean 0.65. -/
theorem displayFallback_prior_witness :
    displayedMean 0.65 (some pVisNoPost) = 0.65 ∧
    getTurnoutColor 0.65 (some pVisNoPost) false = colorScale 0.65 ∧
    getGlowIntensity (some pVisNoPost) 0.65 = glowFromTurnout 0.65 0.1 :=
  displayFallback_prior pVisNoPost 0.65 rfl rfl

/-- C6: the signal direction is the weighted ordinal-score rule (primary
weight 1.0, secondary weight 0.5, thresholds plus and minus 0.5) on every
input pair, and the three scenario pairs classify as stated. -/
theorem signalDirection_weighted :
    (∀ (nt : NeighborTurnoutLevel) (d : TurnoutDirection),
      getSignalType nt d =
        (if 1.0 * turnoutScore nt + 0.5 * directionScore d > 0.5 then SignalType.higher
         else if 1.0 * turnoutScore nt + 0.5 * directionScore d < -0.5 then SignalType.lower
         else SignalType.same)) ∧
    getSignalType .almost_all .much_higher = .higher ∧
    getSignalType .definitely_not .much_lower = .lower ∧
    getSignalType .about_half .about_same = .same := by
  have h : ∀ (nt : NeighborTurnoutLevel) (d : TurnoutDirection),
      getSignalType nt d =
        (if 1.0 * turnoutScore nt + 0.5 * directionScore d > 0.5 then SignalType.higher
         else if 1.0 * turnoutScore nt + 0.5 * directionScore d < -0.5 then SignalType.lower
         else SignalType.same) := by
    intro nt d
    cases nt <;> cases d <;> norm_num [getSignalType, turnoutScore, directionScore]
  refine ⟨h, ?_, ?_, ?_⟩
  · rw [h]; norm_num [turnoutScore, directionScore]
  · rw [h]; norm_num [turnoutScore, directionScore]
  · rw [h]; norm_num [turnoutScore, directionScore]

/-- C7 counterexample: a history-loaded signal for an entity whose current
divergence score is 2 carries impact medium, while the claimed derivation from
the divergence score demands large. -/
theorem signalImpact_history_counterexample :
    (loadedSignal subSample "Mission").impact = Impact.medium ∧
    ((some pHighZ).bind (fun p => p.divergence_z)).getD 0 = 2 ∧
    specImpactOfDivergence 2 = Impact.large ∧
    (loadedSignal subSample "Mission").impact ≠ specImpactOfDivergence 2 := by
  have hlarge : specImpactOfDivergence 2 = Impact.large := by
    rw [specImpactOfDivergence, if_pos (by norm_num : |(2 : ℚ)| ≥ 1.5)]
  refine ⟨rfl, by decide, hlarge, ?_⟩
  rw [hlarge]
  decide

/-- C7 amended: only live-created signals derive their impact from the target
divergence score of the target entity (magnitude at least 1.5 is large, at least
0.75 is medium, otherwise small, a missing score counting as zero);
history-loaded signals are always assigned impact medium regardless of the
divergence of the entity. -/
theorem signalImpact_amended :
    (∀ (sub : PollSubmission) (nb : String) (posterior : Option PosteriorEstimate),
      (liveSignal sub nb posterior).impact =
        specImpactOfDivergence ((posterior.bind (fun p => p.divergence_z)).getD 0)) ∧
    (∀ (sub : PollSubmission) (nb : String),
      (loadedSignal sub nb).impact = Impact.medium) := by
  constructor
  · intro sub nb posterior
    simp [liveSignal, impactFromZ, currentZOf, specImpactOfDivergence]
  · intro sub nb
    rfl

/-- Appending one signal to a log that already holds only its last 50 entries
keeps exactly the last 50 of the extended sequence. -/
theorem appendSignal_lastN50 (s : List SignalEntry) (x : SignalEntry) :
    appendSignal (lastN 50 s) x = lastN 50 (s ++ [x]) := by
  unfold appendSignal lastN
  rw [List.length_drop, List.drop_drop, List.length_append, List.drop_append_eq_append_drop]
  have e1 : s.length - 50 + (s.length - (s.length - 50) - 49) = s.length + [x].length - 50 := by
    simp only [List.length_cons, List.length_nil]
    omega
  have e2 : s.length + [x].length - 50 - s.length = 0 := by
    simp only [List.length_cons, List.length_nil]
    omega
  rw [e1, e2, List.drop_zero]

/-- Folding live appends over a log holding the last 50 of `s` yields the last
50 of the full sequence. -/
theorem foldl_appendSignal_general :
    ∀ (l s : List SignalEntry), l.foldl appendSignal (lastN 50 s) = lastN 50 (s ++ l) := by
  intro l
  induction l with
  | nil => intro s; rw [List.foldl_nil, List.append_nil]
  | cons x tl ih =>
      intro s
      rw [List.foldl_cons, appendSignal_lastN50, ih (s ++ [x]), List.append_assoc,
        List.singleton_append]

/-- C8: the event log never exceeds its capacity of 50 and, after any sequence
of appends, holds exactly the last 50 appended signals in their original
oldest-first order (all of them while fewer than 50 have arrived). -/
theorem eventLog_capacity :
    (∀ sigs : List SignalEntry, sigs.foldl appendSignal [] = lastN 50 sigs) ∧
    (∀ sigs : List SignalEntry, (sigs.foldl appendSignal []).length = min sigs.length 50) := by
  have h : ∀ sigs : List SignalEntry, sigs.foldl appendSignal [] = lastN 50 sigs := by
    intro sigs
    have h0 := foldl_appendSignal_general sigs []
    rw [List.nil_append] at h0
    exact h0
  refine ⟨h, ?_⟩
  intro sigs
  rw [h]
  unfold lastN
  rw [List.length_drop]
  omega

/-- C3: a push event whose record does not match the active election type
leaves the whole hook state unchanged; a matching one merges the record into
the store under its key and changes nothing else. -/
theorem pushEvent_filter :
    ∀ (s : RealtimeState) (r : PosteriorEstimate),
      (r.election_type ≠ s.active → stepRealtime s (.pushEvent r) = s) ∧
      (r.election_type = s.active →
        stepRealtime s (.pushEvent r) = { s with store := mergeRecord s.store r }) := by
  intro s r
  constructor <;> intro h <;> simp [stepRealtime, h]

/-- C3 witness: the push filter applied at a concrete stale event and at a
concrete matching event. -/
theorem pushEvent_filter_witness :
    stepRealtime { active := ElectionType.presidential, store := [], pendingLoads := [] }
        (.pushEvent recMid) =
      { active := ElectionType.presidential, store := [], pendingLoads := [] } ∧
    stepRealtime { active := ElectionType.midterm_2026, store := [], pendingLoads := [] }
        (.pushEvent recMid) =
      { active := ElectionType.midterm_2026, store := [("PCT_7", recMid)],
        pendingLoads := [] } :=
  ⟨(pushEvent_filter { active := ElectionType.presidential, store := [], pendingLoads := [] }
      recMid).1 (by decide),
   (pushEvent_filter { active := ElectionType.midterm_2026, store := [], pendingLoads := [] }
      recMid).2 rfl⟩

/-- C1 counterexample: mounted on the presidential partition (one initial fetch
in flight), switch to midterm 2026, then let the old fetch resolve: the store
snapshot after the switch holds a presidential record. -/
theorem partitionSwitch_stale_counterexample :
    (initRealtime ElectionType.presidential).active = ElectionType.presidential ∧
    ElectionType.presidential ≠ ElectionType.midterm_2026 ∧
    storeFind (runRealtime ElectionType.presidential
        [RealtimeEvent.setPartition ElectionType.midterm_2026,
         RealtimeEvent.loadComplete 0 [recPres]]).store "PCT_9001" = some recPres ∧
    recPres.election_type = ElectionType.presidential :=
  ⟨rfl, by decide, rfl, rfl⟩

/-- A record written by a set stays in the entry list or is the written pair. -/
theorem mem_mapSet (m : List (String × PosteriorEstimate)) (k : String) (v : PosteriorEstimate) :
    ∀ kv ∈ mapSet m k v, kv ∈ m ∨ kv = (k, v) := by
  induction m with
  | nil =>
      intro kv h
      simp [mapSet] at h
      right
      exact h
  | cons hd tl ih =>
      obtain ⟨k0, v0⟩ := hd
      intro kv h
      by_cases hk : k0 = k
      · subst hk
        rw [mapSet, if_pos rfl] at h
        rcases List.mem_cons.mp h with h1 | h1
        · right; exact h1
        · left; exact List.mem_cons_of_mem _ h1
      · rw [mapSet, if_neg hk] at h
        rcases List.mem_cons.mp h with h1 | h1
        · left; rw [h1]; exact List.mem_cons_self _ _
        · rcases ih kv h1 with h2 | h2
          · left; exact List.mem_cons_of_mem _ h2
          · right; exact h2

/-- Every record of a store built from a record list comes from that list. -/
theorem mem_mergeAll (rs : List PosteriorEstimate) :
    ∀ kv ∈ mergeAll rs, kv.2 ∈ rs := by
  have key : ∀ (rs : List PosteriorEstimate) (m : List (String × PosteriorEstimate)) kv,
      kv ∈ rs.foldl mergeRecord m → kv ∈ m ∨ kv.2 ∈ rs := by
    intro rs
    induction rs with
    | nil =>
        intro m kv h
        left
        simpa using h
    | cons r tl ih =>
        intro m kv h
        rw [List.foldl_cons] at h
        rcases ih (mergeRecord m r) kv h with h1 | h2
        · rcases mem_mapSet m r.geo_id r kv h1 with hm | he
          · left; exact hm
          · right; rw [he]; exact List.mem_cons_self _ _
        · right; exact List.mem_cons_of_mem _ h2
  intro kv h
  rcases key rs [] kv h with h1 | h2
  · simp at h1
  · exact h2

/-- Every hook step other than a partition switch preserves the scoping of the
state to election type `B`. -/
theorem step_scoped (B : ElectionType) (s : RealtimeState) (ev : RealtimeEvent)
    (hs : scopedTo B s) (hev : ∀ C, ev ≠ .setPartition C) :
    scopedTo B (stepRealtime s ev) := by
  obtain ⟨ha, hp, hst⟩ := hs
  cases ev with
  | pushEvent r =>
      by_cases h : r.election_type = s.active
      · rw [stepRealtime, if_pos h]
        refine ⟨ha, hp, ?_⟩
        intro kv hkv
        rcases mem_mapSet s.store r.geo_id r kv hkv with h1 | h1
        · exact hst kv h1
        · rw [h1]
          rw [ha] at h
          exact h
      · rw [stepRealtime, if_neg h]
        exact ⟨ha, hp, hst⟩
  | loadComplete i records =>
      rw [stepRealtime]
      split
      · exact ⟨ha, hp, hst⟩
      · rename_i p hg
        split
        · rename_i hall
          have hpB : p = B := hp p (List.get?_mem hg)
          refine ⟨ha, ?_, ?_⟩
          · intro q hq
            exact hp q (List.mem_of_mem_eraseIdx hq)
          · intro kv hkv
            have h2 := mem_mergeAll records kv hkv
            have h3 := of_decide_eq_true (List.all_eq_true.mp hall kv.2 h2)
            rw [h3, hpB]
        · exact ⟨ha, hp, hst⟩
  | pollTick =>
      refine ⟨ha, ?_, hst⟩
      intro q hq
      rcases List.mem_append.mp hq with h1 | h1
      · exact hp q h1
      · rw [List.mem_singleton.mp h1, ha]
  | setPartition C => exact absurd rfl (hev C)

/-- C1 amended: switching to partition B clears the store synchronously and,
provided no fetch issued under the old partition is still in flight at the
switch, every snapshot taken afterwards (until another switch) holds only
partition-B records; push events for other partitions are always dropped. The
counterexample shows the proviso is necessary: a fetch of the old partition
that resolves after the switch repopulates the store with stale records. -/
theorem partitionSwitch_scoped (A B : ElectionType) (s : RealtimeState)
    (post : List RealtimeEvent)
    (hA : s.active = A) (hAB : A ≠ B) (hpend : s.pendingLoads = [])
    (hpost : ∀ C, RealtimeEvent.setPartition C ∉ post) :
    ∀ kv ∈ (post.foldl stepRealtime (stepRealtime s (.setPartition B))).store,
      kv.2.election_type = B := by
  have hne : ¬ (B = s.active) := by
    rw [hA]
    exact fun h => hAB h.symm
  have h0 : scopedTo B (stepRealtime s (.setPartition B)) := by
    rw [stepRealtime, if_neg hne, hpend]
    refine ⟨rfl, ?_, ?_⟩
    · intro p hp
      simpa using hp
    · intro kv hkv
      simp at hkv
  have key : ∀ (evs : List RealtimeEvent) (s0 : RealtimeState), scopedTo B s0 →
      (∀ C, RealtimeEvent.setPartition C ∉ evs) → scopedTo B (evs.foldl stepRealtime s0) := by
    intro evs
    induction evs with
    | nil => intro s0 h _; exact h
    | cons e tl ih =>
        intro s0 h hno
        rw [List.foldl_cons]
        refine ih (stepRealtime s0 e) ?_ ?_
        · refine step_scoped B s0 e h ?_
          intro C hC
          exact hno C (by rw [hC]; exact List.mem_cons_self _ _)
        · intro C hC
          exact hno C (List.mem_cons_of_mem _ hC)
  exact fun kv hkv => (key post _ h0 hpost).2.2 kv hkv

/-- C1 amended witness: a concrete switch from presidential (stale record in
the store, no fetch in flight) to midterm 2026, followed by a matching push
event and a poll tick; the record then found in the store is scoped to
midterm 2026. -/
theorem partitionSwitch_scoped_witness :
    ("PCT_7", recMid).2.election_type = ElectionType.midterm_2026 :=
  partitionSwitch_scoped ElectionType.presidential ElectionType.midterm_2026
    { active := ElectionType.presidential, store := [("PCT_9001", recPres)],
      pendingLoads := [] }
    [RealtimeEvent.pushEvent recMid, RealtimeEvent.pollTick]
    rfl (by decide) rfl
    (by intro C; cases C <;> decide)
    ("PCT_7", recMid)
    (by exact List.mem_cons_self _ _)

/-- C9 counterexample: the key is marked at 0 ms and again at 1000 ms (within
the 2000 ms window), yet at 2500 ms — still inside one window after the second
mark — it is no longer highlighted, because the timeout of the first mark
fired at 2000 ms and deleted it. -/
theorem highlight_restack_counterexample :
    ((0 : Nat) ≤ 1000 ∧ 1000 < 0 + 2000 ∧ 1000 ≤ 2500 ∧ 2500 < 1000 + 2000) ∧
    isHighlightedAt [(0, "PCT_1"), (1000, "PCT_1")] "PCT_1" 2500 = false :=
  ⟨by omega, by decide⟩

/-- C9 amended: re-marking a key within the expiry window does not reset the
expiry; each mark schedules its own removal and the earliest one wins, so the
key stays highlighted only until 2000 ms after the first mark and is removed
from then on, before one window after the second mark has elapsed. -/
theorem highlight_earliestTimerWins (k : String) (t1 t2 T : Nat)
    (h12 : t1 ≤ t2) (hw : t2 < t1 + 2000) :
    (t2 ≤ T → T < t1 + 2000 → isHighlightedAt [(t1, k), (t2, k)] k T = true) ∧
    (t1 + 2000 ≤ T → isHighlightedAt [(t1, k), (t2, k)] k T = false) := by
  constructor
  · intro hT1 hT2
    have e1 : t1 ≤ T := le_trans h12 hT1
    have e2 : ¬ (t1 + 2000 ≤ t2) := by omega
    have e3 : ¬ (t1 + 2000 ≤ T) := by omega
    have e4 : ¬ (t2 + 2000 ≤ T) := by omega
    simp [isHighlightedAt, processMarks, markKey, fireDue, e1, hT1, e2, e3, e4, hw]
  · intro hT
    have e1 : t1 ≤ T := by omega
    have e2 : t2 ≤ T := by omega
    have e3 : ¬ (t1 + 2000 ≤ t2) := by omega
    simp [isHighlightedAt, processMarks, markKey, fireDue, e1, e2, e3, hT, hw]

/-- C9 amended witness: the two statements applied at marks 0 ms and 1000 ms,
queried at 1500 ms (still highlighted) and 2500 ms (removed early). -/
theorem highlight_earliestTimerWins_witness :
    isHighlightedAt [(0, "PCT_2"), (1000, "PCT_2")] "PCT_2" 1500 = true ∧
    isHighlightedAt [(0, "PCT_2"), (1000, "PCT_2")] "PCT_2" 2500 = false :=
  ⟨(highlight_earliestTimerWins "PCT_2" 0 1000 1500 (by omega) (by omega)).1
      (by omega) (by omega),
   (highlight_earliestTimerWins "PCT_2" 0 1000 2500 (by omega) (by omega)).2 (by omega)⟩

end VoterHack
